import Mathlib

/-
Verification development for the nt-hive2 key-node decoder (src/nk.rs).

Shallow embedding conventions:
  * Machine integers (u16/u32/u64) are modelled as `Nat`; the only place a
    width matters is the u32 absent-offset sentinel 0xFFFFFFFF and the u16
    flags vocabulary mask, both made explicit.
  * The backing store (`Hive<B>` plus the binread reader) is modelled as a
    typed partial map from cell offsets to the record that a typed read at
    that offset would decode; a read of an absent offset is an IO/decode
    error, exactly as a seek-plus-read past the end of the hive file.
  * Fallible Rust code (`BinResult`) becomes the `Outcome` type; a Rust
    panic (`unwrap`, `assert!`) is the distinct `Outcome.panicked` outcome,
    kept separate from `Outcome.error` (a returned `BinResult::Err`).
  * Every store-reading computation also counts how many typed reads of the
    backing store it performed, so that claims about "zero additional
    reads" are statable: `M alpha := Outcome (alpha times read-count)`.
  * `KeyNode.subkeys` in Rust is an `Rc<RefCell<...>>` cache mutated by the
    `subkeys` method; here the method returns the post-state node next to
    its result, which models the cache-cell write (or its absence, when the
    method returns early with an error).
-/

set_option autoImplicit false

universe u

/-- Error kind of a failed typed read: carries the offset whose seek+decode
failed.  This stands for a returned `binread::Error` (`BinResult::Err`). -/
inductive RErr : Type where
  | readFailed (offset : Nat)
  deriving DecidableEq, Repr

/-- Result of running a piece of the decoder: a normal value, a returned
typed error, or a Rust panic (`unwrap` on `None`, or a failed `assert!`). -/
inductive Outcome (α : Type u) : Type u where
  | ok (a : α)
  | error (e : RErr)
  | panicked
  deriving DecidableEq, Repr

/-- A store-reading computation: its value is paired with the number of
typed reads it performed on the backing store. -/
abbrev M (α : Type) : Type := Outcome (α × Nat)

/-- Sequencing of store-reading computations: errors and panics
short-circuit, read counts add up. -/
def M.bind {α β : Type} (x : M α) (f : α → M β) : M β :=
  match x with
  | .ok (a, n) =>
    match f a with
    | .ok (b, m) => .ok (b, n + m)
    | .error e => .error e
    | .panicked => .panicked
  | .error e => .error e
  | .panicked => .panicked

/-- The result of a computation with the read count erased. -/
def Outcome.res {α : Type} : M α → Outcome α
  | .ok (a, _) => .ok a
  | .error e => .error e
  | .panicked => .panicked

/-- The read count of a computation (`none` when it errored or panicked). -/
def Outcome.reads {α : Type} : M α → Option Nat
  | .ok (_, c) => some c
  | .error _ => none
  | .panicked => none

/-- Whether an outcome is a returned typed error (as opposed to a success
or a panic). -/
def Outcome.isError {α : Type u} : Outcome α → Bool
  | .error _ => true
  | _ => false

/-- Sequencing on count-erased results, used to state count-erased
composition laws. -/
def Outcome.bindRes {α β : Type} : Outcome α → (α → Outcome β) → Outcome β
  | .ok a, f => f a
  | .error e, _ => .error e
  | .panicked, _ => .panicked

/-- `iterator.map(f).collect::<BinResult<Vec<_>>>()`: run `f` on each
element left to right, short-circuiting at the first error or panic. -/
def collectM {σ α : Type} (f : σ → M α) : List σ → M (List α)
  | [] => .ok ([], 0)
  | x :: xs =>
    match f x with
    | .ok (a, n) =>
      match collectM f xs with
      | .ok (as', m) => .ok (a :: as', n + m)
      | .error e => .error e
      | .panicked => .panicked
    | .error e => .error e
    | .panicked => .panicked

/-- The u32 absent-offset sentinel `u32::MAX`: "no such cell", never to be
dereferenced. -/
def sentinel : Nat := 4294967295

/-- A decoded value record (`vk.rs` is outside the provided sources; the
spec treats the value-record field layout as an external collaborator, so
the record is abstract here — only its identity matters to the claims). -/
structure KeyValue where
  vid : Nat
  deriving DecidableEq, Repr

/-- A decoded `KeyValueList` cell: an ordered list of offsets of value
records. -/
structure KeyValueList where
  key_value_offsets : List Nat
  deriving DecidableEq, Repr

/-- Modelled from the spec: the four on-disk subkey-index variants of
`subkeys_list.rs` (not among the provided sources).  IndexLeaf and
IndexRoot entries are bare offsets; FastLeaf and HashLeaf entries pair an
offset with a 4-byte name hash that this layer never consults. -/
inductive SubKeysList : Type where
  | indexLeaf (items : List Nat)
  | fastLeaf (items : List (Nat × Nat))
  | hashLeaf (items : List (Nat × Nat))
  | indexRoot (items : List Nat)
  deriving DecidableEq, Repr

/-- Modelled from the spec: `SubKeysList::is_index_root` — whether the
decoded variant is the one-level indirection variant. -/
def SubKeysList.is_index_root : SubKeysList → Bool
  | .indexRoot _ => true
  | _ => false

/-- Modelled from the spec: `SubKeysList::into_offsets()` yields exactly
the on-disk entry offsets in on-disk order (for the hashed leaf variants,
the offset component of each entry), with no deduplication or sorting; for
an IndexRoot it yields the offsets of the referenced second-level lists. -/
def SubKeysList.into_offsets : SubKeysList → List Nat
  | .indexLeaf items => items
  | .fastLeaf items => items.map Prod.fst
  | .hashLeaf items => items.map Prod.fst
  | .indexRoot items => items

/-- The raw fields of one `nk` cell in on-disk order (the `#[br(temp)]`
fields included), as read by the `derive_binread` structure in nk.rs.  The
magic check and the primitive field reads are folded into the typed store
lookup; `key_name_string` holds the name already decoded by the external
`parse_string` helper, and `timestamp` the raw 64-bit file-time consumed by
the external `parse_timestamp` helper. -/
structure NkRecord where
  rawFlags : Nat
  timestamp : Nat
  access_bits : Nat
  parent : Nat
  subkey_count : Nat
  volatile_subkey_count : Nat
  subkeys_list_offset : Nat
  volatile_subkeys_list_offset : Nat
  key_values_count : Nat
  key_values_list_offset : Nat
  key_security_offset : Nat
  class_name_offset : Nat
  max_subkey_name : Nat
  max_subkey_class_name : Nat
  max_value_name : Nat
  max_value_data : Nat
  work_var : Nat
  key_name_length : Nat
  class_name_length : Nat
  key_name_string : String
  deriving DecidableEq, Repr

/-- The backing store, as seen through `Hive::read_structure`: a typed
partial map from cell offset to the record a typed read there decodes.
An offset absent from the relevant map is an offset where the typed
seek-plus-read fails (out of range, wrong magic, free cell, ...). -/
structure Store where
  subkeysLists : Nat → Option SubKeysList
  nkRecords : Nat → Option NkRecord
  keyValueLists : Nat → Option KeyValueList
  keyValues : Nat → Option KeyValue

/-- A decoded key node.  Mirrors the retained (non-`temp`) fields of the
Rust `KeyNode` struct; the retained `key_values_list` pointer cell is not
replayed here because no operation reads it after construction (the
eagerly decoded `values` vector is what `values()` returns).  `subkeys` is
the `Rc<RefCell<Vec<...>>>` lazy cache, empty at decode time. -/
inductive KeyNode : Type where
  | mk (flags timestamp access_bits parent subkey_count subkeys_list_offset : Nat)
      (key_name_string : String) (values : List KeyValue) (subkeys : List KeyNode)

def KeyNode.flags : KeyNode → Nat
  | .mk f _ _ _ _ _ _ _ _ => f

def KeyNode.timestamp : KeyNode → Nat
  | .mk _ t _ _ _ _ _ _ _ => t

def KeyNode.access_bits : KeyNode → Nat
  | .mk _ _ a _ _ _ _ _ _ => a

def KeyNode.parent : KeyNode → Nat
  | .mk _ _ _ p _ _ _ _ _ => p

def KeyNode.subkey_count : KeyNode → Nat
  | .mk _ _ _ _ c _ _ _ _ => c

def KeyNode.subkeys_list_offset : KeyNode → Nat
  | .mk _ _ _ _ _ o _ _ _ => o

def KeyNode.key_name_string : KeyNode → String
  | .mk _ _ _ _ _ _ nm _ _ => nm

/-- `KeyNode::name()`. -/
def KeyNode.name (n : KeyNode) : String :=
  n.key_name_string

def KeyNode.values : KeyNode → List KeyValue
  | .mk _ _ _ _ _ _ _ v _ => v

def KeyNode.subkeys : KeyNode → List KeyNode
  | .mk _ _ _ _ _ _ _ _ sk => sk

/-- Overwrite the subkey cache (`*self.subkeys.borrow_mut() = sk`). -/
def KeyNode.withSubkeys : KeyNode → List KeyNode → KeyNode
  | .mk f t a p c o nm v _, sk => .mk f t a p c o nm v sk

/-- `parse_node_flags`: read the raw u16 and
`KeyNodeFlags::from_bits(raw).unwrap()`.  The defined vocabulary is the
ten bits 0x0001..0x0200 (mask 0x03FF); `from_bits` is `None` exactly when a
bit outside the vocabulary (mask 0xFC00 within a u16) is set, and the
`unwrap` then panics. -/
def parse_node_flags (raw : Nat) : M Nat :=
  if Nat.land raw 64512 = 0 then .ok (raw, 0) else .panicked

/-- One typed read of a SubKeysList cell (`hive.read_structure(offset)`). -/
def readSubKeysList (s : Store) (o : Nat) : M SubKeysList :=
  match s.subkeysLists o with
  | some l => .ok (l, 1)
  | none => .error (.readFailed o)

/-- `read_values`: given the (optional) dereferenced KeyValueList pointer,
seek to each listed offset in order and decode one value record.  The seek
cannot fail on an absolute position; the decode is `read_le().unwrap()`,
so a failed value-record decode is a panic, not a returned error. -/
def read_values (s : Store) (kvl : Option KeyValueList) : M (List KeyValue) :=
  match kvl with
  | none => .ok ([], 0)
  | some l =>
    collectM (fun o =>
      match s.keyValues o with
      | some v => .ok (v, 1)
      | none => .panicked) l.key_value_offsets

/-- Decode one `KeyNode` record at offset `o` (the `derive_binread` layout
of nk.rs): read the raw record (magic check folded into the typed lookup),
parse the flags (panics on undefined bits), then — in field order — parse
the `key_values_list` field, an `Option<FilePtr32<Cell<KeyValueList>>>`
guarded only by `key_values_count > 0` and dereferenced immediately
(`deref_now`), then the `values` field, guarded by
`key_values_count > 0 && key_values_list_offset != u32::MAX`.  The subkey
cache starts empty. -/
def decodeKeyNode (s : Store) (o : Nat) : M KeyNode :=
  match s.nkRecords o with
  | none => .error (.readFailed o)
  | some r =>
    M.bind (parse_node_flags r.rawFlags) (fun fl =>
    M.bind (if r.key_values_count > 0 then
              match s.keyValueLists r.key_values_list_offset with
              | some l => .ok (some l, 1)
              | none => .error (.readFailed r.key_values_list_offset)
            else .ok (none, 0)) (fun kvl =>
    M.bind (if r.key_values_count > 0 ∧ r.key_values_list_offset ≠ sentinel
            then read_values s kvl
            else .ok ([], 0)) (fun vals =>
    .ok (KeyNode.mk fl r.timestamp r.access_bits r.parent r.subkey_count
          r.subkeys_list_offset r.key_name_string vals [], 1))))

/-- The closure of the IndexRoot branch of `read_subkeys`, named: decode
the second-level SubKeysList at offset `o`, `assert!` it is not itself an
IndexRoot (a panic when violated), and decode each of its entry offsets to
a key node, in order. -/
def readLeafNodes (s : Store) (o : Nat) : M (List KeyNode) :=
  M.bind (readSubKeysList s o) (fun sub =>
    if sub.is_index_root then .panicked
    else collectM (decodeKeyNode s) sub.into_offsets)

/-- `KeyNode::read_subkeys`: sentinel offset means an empty child list;
otherwise decode the SubKeysList at the offset; an IndexRoot is flattened
one level (each referenced list handled by `readLeafNodes`, results
concatenated in list order); a leaf's offsets are decoded to nodes
directly.  List order is preserved throughout. -/
def KeyNode.read_subkeys (n : KeyNode) (s : Store) : M (List KeyNode) :=
  if n.subkeys_list_offset = sentinel then .ok ([], 0)
  else
    M.bind (readSubKeysList s n.subkeys_list_offset) (fun skl =>
      if skl.is_index_root then
        M.bind (collectM (readLeafNodes s) skl.into_offsets)
          (fun nested => .ok (nested.flatten, 0))
      else
        collectM (decodeKeyNode s) skl.into_offsets)

/-- `KeyNode::subkeys(hive)`: if the cache is empty and `subkey_count > 0`,
run `read_subkeys` and store its result in the cache; otherwise return the
cache unchanged with no store access.  The returned pair is (post-state
node, outcome): on an error or panic the early return leaves the cache
untouched. -/
def KeyNode.subkeysCall (n : KeyNode) (s : Store) : KeyNode × M (List KeyNode) :=
  if n.subkeys.isEmpty ∧ n.subkey_count > 0 then
    match n.read_subkeys s with
    | .ok (sk, c) => (n.withSubkeys sk, .ok (sk, c))
    | .error e => (n, .error e)
    | .panicked => (n, .panicked)
  else (n, .ok (n.subkeys, 0))

/-- `KeyNode::subkey(name, hive)`: linear scan of the (possibly freshly
decoded) subkey sequence for the first exact name match. -/
def KeyNode.subkey (n : KeyNode) (name : String) (s : Store) :
    KeyNode × M (Option KeyNode) :=
  match n.subkeysCall s with
  | (n', .ok (sk, c)) => (n', .ok (sk.find? (fun ch => ch.name == name), c))
  | (n', .error e) => (n', .error e)
  | (n', .panicked) => (n', .panicked)

/-- `KeyNode::subpath_parts`: the Rust code receives the components in a
reversed `Vec` and takes them with `Vec::pop` (which removes the last
element), so it consumes the components in original left-to-right order;
here the list is that pop order.  An empty list yields `Ok(None)` with no
lookup; otherwise the head component is looked up, a miss short-circuits
to `Ok(None)`, a hit on the final component is the result, and a hit on a
non-final component recurses into the found child. -/
def KeyNode.subpath_parts (n : KeyNode) (s : Store) : List String → M (Option KeyNode)
  | [] => .ok (none, 0)
  | first :: rest =>
    match n.subkey first s with
    | (_, .ok (some top, c)) =>
      if rest.isEmpty then .ok (some top, c)
      else
        match top.subpath_parts s rest with
        | .ok (r, c2) => .ok (r, c + c2)
        | .error e => .error e
        | .panicked => .panicked
    | (_, .ok (none, c)) => .ok (none, c)
    | (_, .error e) => .error e
    | (_, .panicked) => .panicked

/-- Rust `str::split(sep)` on a character list: every occurrence of the
separator ends a segment, so the empty input yields one empty segment and
adjacent separators yield empty segments between them. -/
def splitChars (sep : Char) : List Char → List (List Char)
  | [] => [[]]
  | c :: cs =>
    if c = sep then [] :: splitChars sep cs
    else
      match splitChars sep cs with
      | g :: gs => (c :: g) :: gs
      | [] => [[c]]

/-- Rust `str::split(sep)` on a string. -/
def splitString (sep : Char) (s : String) : List String :=
  (splitChars sep s.data).map String.mk

/-- `SubPath<&str>::subpath`: split the path on the backslash delimiter
(`path.split('\x5c')`), reverse into the pop-order vector, and resolve;
with the pop-order convention of `subpath_parts` this is the split list in
original order. -/
def KeyNode.subpath (n : KeyNode) (path : String) (s : Store) : M (Option KeyNode) :=
  n.subpath_parts s (splitString '\\' path)

/-- `SubPath<&Vec<&str>>::subpath`: the component list is reversed into pop
order and resolved, i.e. resolved in the given order. -/
def KeyNode.subpath_list (n : KeyNode) (parts : List String) (s : Store) :
    M (Option KeyNode) :=
  n.subpath_parts s parts

/-! ### Concrete fixtures -/

/-- A backing store with nothing decodable at any offset. -/
def emptyStore : Store :=
  ⟨fun _ => none, fun _ => none, fun _ => none, fun _ => none⟩

/-- A raw nk record with the given flags, name, subkey count, subkeys-list
offset, values count and values-list offset; every other field zero. -/
def nkRec (flags : Nat) (name : String) (cnt slo kvc kvlo : Nat) : NkRecord :=
  ⟨flags, 0, 0, 0, cnt, 0, slo, 0, kvc, kvlo, 0, 0, 0, 0, 0, 0, 0, 0, 0, name⟩

/-- A node claiming one subkey, cache empty. -/
def kn1 : KeyNode := .mk 0 0 0 0 1 100 "N" [] []

/-- Store for kn1: offset 100 holds an IndexLeaf with zero entries. -/
def s1 : Store :=
  ⟨fun o => if o = 100 then some (.indexLeaf []) else none,
   fun _ => none, fun _ => none, fun _ => none⟩

/-- A node whose subkeys list is an IndexRoot referencing another
IndexRoot. -/
def kn2 : KeyNode := .mk 0 0 0 0 1 200 "R" [] []

/-- Store for kn2: offset 200 holds an IndexRoot pointing at offset 210,
which itself holds an IndexRoot. -/
def s2 : Store :=
  ⟨fun o => if o = 200 then some (.indexRoot [210])
            else if o = 210 then some (.indexRoot []) else none,
   fun _ => none, fun _ => none, fun _ => none⟩

/-- Store for the sentinel-values-list scenario: offset 300 holds a record
with `key_values_count = 5` and the values-list offset equal to the absent
sentinel; no KeyValueList cell exists anywhere (in particular not at the
sentinel, which lies past the end of any real hive). -/
def s3 : Store :=
  ⟨fun _ => none,
   fun o => if o = 300 then some (nkRec 0 "V" 0 sentinel 5 sentinel) else none,
   fun _ => none, fun _ => none⟩

/-- Store for the undefined-flag-bit scenario: offset 400 holds a record
whose raw u16 flags are 0x0400, outside the defined vocabulary. -/
def s4 : Store :=
  ⟨fun _ => none,
   fun o => if o = 400 then some (nkRec 1024 "F" 0 sentinel 0 sentinel) else none,
   fun _ => none, fun _ => none⟩

/-- Store for the bad-value-record scenario: offset 500 holds a record with
one value whose list (at 600) points at offset 900, where no value record
decodes. -/
def s5 : Store :=
  ⟨fun _ => none,
   fun o => if o = 500 then some (nkRec 0 "W" 0 sentinel 1 600) else none,
   fun o => if o = 600 then some ⟨[900]⟩ else none,
   fun _ => none⟩

/-- Root of a three-level tree ROOT → A → B → C. -/
def knRoot : KeyNode := .mk 0 0 0 0 1 100 "ROOT" [] []

/-- The decoded node for C in the three-level tree. -/
def knC : KeyNode := .mk 0 0 0 0 0 sentinel "C" [] []

/-- Store for the tree ROOT → A → B → C: one single-entry IndexLeaf per
level. -/
def sABC : Store :=
  ⟨fun o => if o = 100 then some (.indexLeaf [10])
            else if o = 110 then some (.indexLeaf [20])
            else if o = 120 then some (.indexLeaf [30]) else none,
   fun o => if o = 10 then some (nkRec 0 "A" 1 110 0 sentinel)
            else if o = 20 then some (nkRec 0 "B" 1 120 0 sentinel)
            else if o = 30 then some (nkRec 0 "C" 0 sentinel 0 sentinel) else none,
   fun _ => none, fun _ => none⟩

/-- A node with exactly one child whose name is the empty string. -/
def knE : KeyNode := .mk 0 0 0 0 1 100 "E" [] []

/-- The decoded empty-named child. -/
def knEchild : KeyNode := .mk 0 0 0 0 0 sentinel "" [] []

/-- Store for knE: offset 100 holds an IndexLeaf pointing at offset 50,
where a node with the empty name decodes. -/
def sE : Store :=
  ⟨fun o => if o = 100 then some (.indexLeaf [50]) else none,
   fun o => if o = 50 then some (nkRec 0 "" 0 sentinel 0 sentinel) else none,
   fun _ => none, fun _ => none⟩

/-- Root of an IndexRoot tree referencing two well-formed leaves. -/
def n7 : KeyNode := .mk 0 0 0 0 2 700 "R7" [] []

/-- Store for n7: offset 700 holds an IndexRoot referencing a FastLeaf (at
710, entry offset 711 with hash 99) and an IndexLeaf (at 720, entry offset
721); nodes decode at 711 and 721. -/
def s7 : Store :=
  ⟨fun o => if o = 700 then some (.indexRoot [710, 720])
            else if o = 710 then some (.fastLeaf [(711, 99)])
            else if o = 720 then some (.indexLeaf [721]) else none,
   fun o => if o = 711 then some (nkRec 0 "P" 0 sentinel 0 sentinel)
            else if o = 721 then some (nkRec 0 "Q" 0 sentinel 0 sentinel) else none,
   fun _ => none, fun _ => none⟩

/-- A node claiming one subkey over a single-entry leaf list. -/
def n1w : KeyNode := .mk 0 0 0 0 1 100 "N" [] []

/-- The decoded child of n1w. -/
def c1w : KeyNode := .mk 0 0 0 0 0 sentinel "c" [] []

/-- n1w after its cache has been populated with its one child. -/
def n1wCached : KeyNode := .mk 0 0 0 0 1 100 "N" [] [c1w]

/-- Store for n1w: offset 100 holds an IndexLeaf pointing at offset 10,
where the child decodes. -/
def s1w : Store :=
  ⟨fun o => if o = 100 then some (.indexLeaf [10]) else none,
   fun o => if o = 10 then some (nkRec 0 "c" 0 sentinel 0 sentinel) else none,
   fun _ => none, fun _ => none⟩

/-! ### Composition lemmas for count-erased results -/

theorem res_bind {α β : Type} (x : M α) (f : α → M β) :
    (M.bind x f).res = Outcome.bindRes x.res (fun a => (f a).res) := by
  cases x with
  | ok p =>
    obtain ⟨a, n⟩ := p
    cases h : f a <;> simp [M.bind, Outcome.res, Outcome.bindRes, h]
  | error e => rfl
  | panicked => rfl

theorem bindRes_ok {α β : Type} (a : α) (f : α → Outcome β) :
    Outcome.bindRes (.ok a) f = f a := rfl

theorem bindRes_pure {α : Type} (x : Outcome α) :
    Outcome.bindRes x (fun a => .ok a) = x := by
  cases x <;> rfl

theorem bindRes_assoc {α β γ : Type} (x : Outcome α) (f : α → Outcome β)
    (g : β → Outcome γ) :
    Outcome.bindRes (Outcome.bindRes x f) g
      = Outcome.bindRes x (fun a => Outcome.bindRes (f a) g) := by
  cases x <;> rfl

theorem collectM_cons_ok {σ α : Type} (f : σ → M α) (x : σ) (xs : List σ)
    (a : α) (n : Nat) (hx : f x = .ok (a, n)) :
    (collectM f (x :: xs)).res
      = Outcome.bindRes (collectM f xs).res (fun t => .ok (a :: t)) := by
  cases h : collectM f xs with
  | ok p => obtain ⟨as', m⟩ := p; simp [collectM, hx, h, Outcome.res, Outcome.bindRes]
  | error e => simp [collectM, hx, h, Outcome.res, Outcome.bindRes]
  | panicked => simp [collectM, hx, h, Outcome.res, Outcome.bindRes]

theorem collectM_cons_error {σ α : Type} (f : σ → M α) (x : σ) (xs : List σ)
    (e : RErr) (hx : f x = .error e) :
    collectM f (x :: xs) = .error e := by
  simp [collectM, hx]

theorem collectM_cons_panic {σ α : Type} (f : σ → M α) (x : σ) (xs : List σ)
    (hx : f x = .panicked) :
    collectM f (x :: xs) = .panicked := by
  simp [collectM, hx]

theorem collectM_append_res {σ α : Type} (f : σ → M α) (l1 l2 : List σ) :
    (collectM f (l1 ++ l2)).res =
      Outcome.bindRes (collectM f l1).res (fun a =>
        Outcome.bindRes (collectM f l2).res (fun b => .ok (a ++ b))) := by
  induction l1 with
  | nil =>
    show (collectM f l2).res = Outcome.bindRes (collectM f []).res _
    simp only [collectM, Outcome.res, bindRes_ok, List.nil_append, bindRes_pure]
  | cons x xs ih =>
    cases hx : f x with
    | ok p =>
      obtain ⟨a, n⟩ := p
      rw [List.cons_append, collectM_cons_ok f x (xs ++ l2) a n hx, ih,
        collectM_cons_ok f x xs a n hx, bindRes_assoc, bindRes_assoc]
      simp only [bindRes_assoc, bindRes_ok, List.cons_append]
    | error e =>
      rw [List.cons_append, collectM_cons_error f x (xs ++ l2) e hx,
        collectM_cons_error f x xs e hx]
      rfl
    | panicked =>
      rw [List.cons_append, collectM_cons_panic f x (xs ++ l2) hx,
        collectM_cons_panic f x xs hx]
      rfl

/-- Resolve each offset of a list to the SubKeysList stored there, in
order; `none` when any offset has no decodable list. -/
def listsAt (s : Store) : List Nat → Option (List SubKeysList)
  | [] => some []
  | o :: os =>
    match s.subkeysLists o, listsAt s os with
    | some l, some ls => some (l :: ls)
    | _, _ => none

/-! ### Claim theorems -/

/-- C2: the code detects an IndexRoot whose referenced second-level list is
itself an IndexRoot, but handles it with `assert!`, i.e. a panic — the
subkeys call neither succeeds nor returns a `BinResult` error.  On the
store s2 (IndexRoot at 200 referencing an IndexRoot at 210) the lazy
subkey resolution panics, and the outcome is not a returned typed error,
contradicting the claim that a malformed-hive structural error is returned
to the caller. -/
theorem C2_indexroot_violation_panics :
    KeyNode.subkeysCall kn2 s2 = (kn2, .panicked) ∧
    Outcome.isError (KeyNode.subkeysCall kn2 s2).2 = false :=
  ⟨rfl, rfl⟩

/-- C3: a key-node record whose values-list offset is the absent sentinel
while its values count is 5 does NOT decode to a node with an empty value
sequence; the `key_values_list` field is guarded only by
`key_values_count > 0` and dereferenced eagerly (`deref_now`), so decoding
attempts a read through the sentinel offset and fails with a read error at
exactly that offset.  (The `!= u32::MAX` guard sits only on the later
`values` field, too late to help.) -/
theorem C3_sentinel_value_list_dereferenced :
    s3.nkRecords 300 = some (nkRec 0 "V" 0 sentinel 5 sentinel) ∧
    decodeKeyNode s3 300 = .error (.readFailed sentinel) :=
  ⟨rfl, rfl⟩

/-- C4: a raw flags word with a bit outside the defined KeyNodeFlags
vocabulary (here 0x0400) makes `parse_node_flags` panic — the
`KeyNodeFlags::from_bits(raw).unwrap()` — and hence the whole node decode
panics, instead of returning a typed error as the claim states. -/
theorem C4_invalid_flags_panic :
    parse_node_flags 1024 = .panicked ∧ decodeKeyNode s4 400 = .panicked :=
  ⟨rfl, rfl⟩

/-- C5: when one referenced value record fails to decode (store s5: the
value list at 600 references offset 900 where no value record decodes),
`read_values` panics at the `read_le().unwrap()` instead of surfacing a
typed error result, and the panic propagates through the node decode. -/
theorem C5_bad_value_record_panics :
    read_values s5 (some ⟨[900]⟩) = .panicked ∧ decodeKeyNode s5 500 = .panicked :=
  ⟨rfl, rfl⟩

/-- C8: (1) a node with `subkey_count == 0` answers `subkeys` from its
cache with zero store reads — its subkeys-list offset, garbage or not, is
never dereferenced; (2) a freshly decoded node (empty cache) whose stable
subkeys-list offset is the absent sentinel yields an empty subkey sequence
without error and without any store read, whatever its subkey count. -/
theorem C8_zero_count_and_sentinel_safe :
    (∀ (s : Store) (f t a p o : Nat) (nm : String) (v : List KeyValue)
        (cache : List KeyNode),
        (KeyNode.mk f t a p 0 o nm v cache).subkeysCall s
          = (KeyNode.mk f t a p 0 o nm v cache, .ok (cache, 0))) ∧
    (∀ (s : Store) (f t a p c : Nat) (nm : String) (v : List KeyValue),
        (KeyNode.mk f t a p c sentinel nm v []).subkeysCall s
          = (KeyNode.mk f t a p c sentinel nm v [], .ok ([], 0))) := by
  constructor
  · intro s f t a p o nm v cache
    simp [KeyNode.subkeysCall, KeyNode.subkeys, KeyNode.subkey_count]
  · intro s f t a p c nm v
    cases c with
    | zero => rfl
    | succ k =>
      rw [KeyNode.subkeysCall, if_pos ⟨rfl, Nat.succ_pos k⟩]
      have h : (KeyNode.mk f t a p (k + 1) sentinel nm v []).read_subkeys s
          = .ok ([], 0) := by
        rw [KeyNode.read_subkeys]
        exact if_pos rfl
      rw [h]
      rfl

/-- Cache overwrite then cache read: projection of the cache cell. -/
theorem KeyNode.subkeys_withSubkeys (n : KeyNode) (sk : List KeyNode) :
    (n.withSubkeys sk).subkeys = sk := by
  cases n
  rfl

/-- C1 counterexample: the node kn1 claims `subkey_count = 1` but its
subkeys list (an IndexLeaf with zero entries) decodes to an empty
sequence.  The first `subkeys` call performs one store read and leaves the
cache empty, so the guard `cache.is_empty && subkey_count > 0` holds again
and the second call performs one more store read — not zero — decoding the
backing store twice across two calls. -/
theorem C1_empty_decode_rereads :
    KeyNode.subkeysCall kn1 s1 = (kn1, .ok ([], 1)) ∧
    Outcome.reads ((KeyNode.subkeysCall kn1 s1).1.subkeysCall s1).2 ≠ some 0 :=
  ⟨rfl, by decide⟩

/-- C1 amended: if a `subkeys` call succeeds and either returned a
non-empty sequence or the node's `subkey_count` is zero, then a repeated
call on the post-state node returns the same sequence with zero additional
store reads.  (Only a successful decode that yields an empty sequence for
a node claiming subkeys fails to populate the cache and is re-attempted.) -/
theorem C1_cached_after_nonempty (n : KeyNode) (s : Store) (n' : KeyNode)
    (l : List KeyNode) (c : Nat)
    (h : n.subkeysCall s = (n', .ok (l, c)))
    (hl : l ≠ [] ∨ n.subkey_count = 0) :
    n'.subkeysCall s = (n', .ok (l, 0)) := by
  rw [KeyNode.subkeysCall] at h
  by_cases hc : n.subkeys.isEmpty ∧ n.subkey_count > 0
  · rw [if_pos hc] at h
    cases hr : n.read_subkeys s with
    | ok p =>
      obtain ⟨sk, cnt⟩ := p
      rw [hr] at h
      simp only [Prod.mk.injEq, Outcome.ok.injEq] at h
      obtain ⟨h1, h2, h3⟩ := h
      have hne : l ≠ [] := by
        rcases hl with hne | h0
        · exact hne
        · exact absurd (h0 ▸ hc.2) (Nat.lt_irrefl 0)
      subst h1
      subst h2
      cases hl2 : sk with
      | nil => exact absurd hl2 hne
      | cons a tl =>
        rw [KeyNode.subkeysCall,
          if_neg (by simp [KeyNode.subkeys_withSubkeys, hl2]),
          KeyNode.subkeys_withSubkeys]
    | error e => rw [hr] at h; simp at h
    | panicked => rw [hr] at h; simp at h
  · rw [if_neg hc] at h
    simp only [Prod.mk.injEq, Outcome.ok.injEq] at h
    obtain ⟨h1, h2, h3⟩ := h
    subst h1
    subst h2
    rw [KeyNode.subkeysCall, if_neg hc]

/-- C1 witness: on the one-child store s1w, the first call populates the
cache with the decoded child (two reads) and the repeated call on the
cached node answers with zero reads. -/
theorem C1_cached_after_nonempty_witness :
    KeyNode.subkeysCall n1wCached s1w = (n1wCached, .ok ([c1w], 0)) :=
  C1_cached_after_nonempty n1w s1w n1wCached [c1w] 2 (by rfl)
    (Or.inl (by simp))

/-- C9 counterexample: on the store sE, whose node knE has one child named
by the empty string, `subpath("")` does NOT return none without a lookup:
Rust's `"".split('\x5c')` yields one empty component, so a subkey lookup
for the empty name is performed (two store reads) and it finds the
empty-named child, which is returned. -/
theorem C9_empty_path_does_lookup :
    KeyNode.subpath knE "" sE = .ok (some knEchild, 2) ∧
    Outcome.reads (KeyNode.subpath knE "" sE) ≠ some 0 :=
  ⟨rfl, by decide⟩

/-- C9 amended: an empty component LIST performs no lookup and returns
none with zero store reads; but the empty string PATH splits into the
single empty component, so `subpath("")` behaves exactly as one `subkey`
lookup of the empty name — it returns that child when one exists and none
otherwise. -/
theorem C9_empty_path_behaviour :
    (∀ (n : KeyNode) (s : Store), n.subpath_list [] s = .ok (none, 0)) ∧
    splitString '\x5c' "" = [""] ∧
    (∀ (n : KeyNode) (s : Store), n.subpath "" s = (n.subkey "" s).2) := by
  refine ⟨fun n s => rfl, rfl, fun n s => ?_⟩
  show n.subpath_parts s [""] = (n.subkey "" s).2
  rcases hk : n.subkey "" s with ⟨n2, m⟩
  cases m with
  | ok p =>
    obtain ⟨opt, cnt⟩ := p
    cases opt with
    | some top => simp [KeyNode.subpath_parts, hk]
    | none => simp [KeyNode.subpath_parts, hk]
  | error e => simp [KeyNode.subpath_parts, hk]
  | panicked => simp [KeyNode.subpath_parts, hk]

/-- C10: when the lazy decode behind a `subkeys` call fails with an error,
the early return leaves the node's cache cell untouched (the post-state
node is the original node), and a later call on that node attempts the
decode afresh — on the same store it re-runs the decode and fails with the
same error instead of answering from a cache. -/
theorem C10_error_leaves_cache_empty (n : KeyNode) (s : Store) (e : RErr)
    (h : (n.subkeysCall s).2 = .error e) :
    (n.subkeysCall s).1 = n ∧
    ((n.subkeysCall s).1.subkeysCall s).2 = .error e := by
  have h1 : (n.subkeysCall s).1 = n := by
    rw [KeyNode.subkeysCall]
    by_cases hc : n.subkeys.isEmpty ∧ n.subkey_count > 0
    · rw [if_pos hc]
      cases hr : n.read_subkeys s with
      | ok p =>
        exfalso
        obtain ⟨sk, cnt⟩ := p
        rw [KeyNode.subkeysCall, if_pos hc, hr] at h
        simp at h
      | error e2 => rfl
      | panicked => rfl
    · rw [if_neg hc]
  exact ⟨h1, by rw [h1]; exact h⟩

/-- C10 witness: kn1 against the empty store — the decode fails with a
read error at offset 100, the cache stays empty, and the repeated call
fails identically. -/
theorem C10_error_leaves_cache_empty_witness :
    (KeyNode.subkeysCall kn1 emptyStore).1 = kn1 ∧
    ((KeyNode.subkeysCall kn1 emptyStore).1.subkeysCall emptyStore).2
      = .error (.readFailed 100) :=
  C10_error_leaves_cache_empty kn1 emptyStore (.readFailed 100) (by rfl)

/-- One unfolding of `subpath_parts` on a non-empty component list, stated
so it can be rewritten without unfolding the recursive call. -/
theorem subpath_parts_cons (n : KeyNode) (s : Store) (first : String)
    (rest : List String) :
    n.subpath_parts s (first :: rest) =
      match n.subkey first s with
      | (_, .ok (some top, c)) =>
        if rest.isEmpty then .ok (some top, c)
        else
          match top.subpath_parts s rest with
          | .ok (r, c2) => .ok (r, c + c2)
          | .error e => .error e
          | .panicked => .panicked
      | (_, .ok (none, c)) => .ok (none, c)
      | (_, .error e) => .error e
      | (_, .panicked) => .panicked := rfl

/-- C6: `subpath` splits the path on the backslash delimiter and resolves
the components left to right by repeated `subkey` calls: (1) `subpath` is
resolution of the backslash-split component list; (2) a component that
fails to match short-circuits the whole resolution to none; (3) a matched
component yields the matched child for the final component and recurses
into it otherwise; and concretely, on the tree ROOT→A→B→C, resolving
"A\x5cB\x5cC" yields C's node while "A\x5cX" yields none. -/
theorem C6_subpath_resolution :
    (∀ (n : KeyNode) (s : Store) (path : String),
        n.subpath path s = n.subpath_parts s (splitString '\x5c' path)) ∧
    (∀ (n : KeyNode) (s : Store) (first : String) (rest : List String),
        ((n.subkey first s).2).res = .ok none →
        (n.subpath_parts s (first :: rest)).res = .ok none) ∧
    (∀ (n : KeyNode) (s : Store) (first : String) (rest : List String)
        (top : KeyNode),
        ((n.subkey first s).2).res = .ok (some top) →
        (n.subpath_parts s (first :: rest)).res =
          (if rest.isEmpty then .ok (some top)
           else (top.subpath_parts s rest).res)) ∧
    (KeyNode.subpath knRoot "A\\B\\C" sABC).res = .ok (some knC) ∧
    (KeyNode.subpath knRoot "A\\X" sABC).res = .ok none := by
  refine ⟨fun n s path => rfl, ?_, ?_, rfl, rfl⟩
  · intro n s first rest h
    rcases hk : n.subkey first s with ⟨n2, m⟩
    rw [hk] at h
    rw [subpath_parts_cons, hk]
    cases m with
    | ok p =>
      obtain ⟨opt, cnt⟩ := p
      simp only [Outcome.res, Outcome.ok.injEq] at h
      subst h
      simp [Outcome.res]
    | error e => simp [Outcome.res] at h
    | panicked => simp [Outcome.res] at h
  · intro n s first rest top h
    rcases hk : n.subkey first s with ⟨n2, m⟩
    rw [hk] at h
    rw [subpath_parts_cons, hk]
    cases m with
    | ok p =>
      obtain ⟨opt, cnt⟩ := p
      simp only [Outcome.res, Outcome.ok.injEq] at h
      subst h
      cases rest with
      | nil => simp [Outcome.res]
      | cons r rs =>
        cases hrec : top.subpath_parts s (r :: rs) with
        | ok q => obtain ⟨opt2, c2⟩ := q; simp [hrec, Outcome.res]
        | error e => simp [hrec, Outcome.res]
        | panicked => simp [hrec, Outcome.res]
    | error e => simp [Outcome.res] at h
    | panicked => simp [Outcome.res] at h

/-- C6 witness: resolving a two-component path whose first component does
not match any child of ROOT short-circuits to none. -/
theorem C6_subpath_resolution_witness :
    (KeyNode.subpath_parts knRoot sABC ["X", "Y"]).res = .ok none :=
  C6_subpath_resolution.2.1 knRoot sABC "X" ["Y"] (by rfl)

/-- A second-level list that is present and not an IndexRoot contributes
exactly the node decodes of its own offsets (the extra list read only
affects the count). -/
theorem readLeafNodes_res (s : Store) (o : Nat) (l : SubKeysList)
    (hso : s.subkeysLists o = some l) (hl : l.is_index_root = false) :
    (readLeafNodes s o).res = (collectM (decodeKeyNode s) l.into_offsets).res := by
  rw [readLeafNodes, res_bind]
  simp only [readSubKeysList, hso, Outcome.res, Outcome.bindRes, hl,
    Bool.false_eq_true, if_false]


/-- The IndexRoot loop of `read_subkeys`: when every referenced offset
resolves to a non-IndexRoot list, the flattened result is the in-order
node decode of the concatenation of the referenced lists' own offsets. -/
theorem indexroot_flatten_res (s : Store) (os : List Nat) :
    ∀ ls : List SubKeysList,
      listsAt s os = some ls →
      (∀ l ∈ ls, l.is_index_root = false) →
      (M.bind (collectM (readLeafNodes s) os)
          (fun nested => .ok (nested.flatten, 0))).res
        = (collectM (decodeKeyNode s)
            (List.flatten (ls.map SubKeysList.into_offsets))).res := by
  induction os with
  | nil =>
    intro ls h _
    simp only [listsAt, Option.some.injEq] at h
    subst h
    rfl
  | cons o os ih =>
    intro ls h hnr
    cases hso : s.subkeysLists o with
    | none => simp [listsAt, hso] at h
    | some l =>
      cases hrest : listsAt s os with
      | none => simp [listsAt, hso, hrest] at h
      | some ls' =>
        rw [listsAt, hso, hrest] at h
        simp only [Option.some.injEq] at h
        subst h
        have hl : l.is_index_root = false := hnr l (List.mem_cons_self l ls')
        have hnr' : ∀ l' ∈ ls', l'.is_index_root = false :=
          fun l' hm => hnr l' (List.mem_cons_of_mem _ hm)
        have ihr := ih ls' hrest hnr'
        have hleaf := readLeafNodes_res s o l hso hl
        rw [List.map_cons, List.flatten_cons, collectM_append_res]
        cases hcl : collectM (decodeKeyNode s) l.into_offsets with
        | error e =>
          rw [hcl] at hleaf
          have hro : readLeafNodes s o = .error e := by
            cases hx : readLeafNodes s o with
            | ok q => obtain ⟨a, c⟩ := q; rw [hx] at hleaf; simp [Outcome.res] at hleaf
            | error e2 =>
              rw [hx] at hleaf
              simp only [Outcome.res, Outcome.error.injEq] at hleaf
              rw [hleaf]
            | panicked => rw [hx] at hleaf; simp [Outcome.res] at hleaf
          rw [collectM_cons_error _ o os e hro]
          simp [M.bind, Outcome.res, Outcome.bindRes]
        | panicked =>
          rw [hcl] at hleaf
          have hro : readLeafNodes s o = .panicked := by
            cases hx : readLeafNodes s o with
            | ok q => obtain ⟨a, c⟩ := q; rw [hx] at hleaf; simp [Outcome.res] at hleaf
            | error e2 => rw [hx] at hleaf; simp [Outcome.res] at hleaf
            | panicked => rfl
          rw [collectM_cons_panic _ o os hro]
          simp [M.bind, Outcome.res, Outcome.bindRes]
        | ok p =>
          obtain ⟨b, m⟩ := p
          rw [hcl] at hleaf
          have hro : ∃ m2, readLeafNodes s o = .ok (b, m2) := by
            cases hx : readLeafNodes s o with
            | ok q =>
              obtain ⟨b2, m2⟩ := q
              rw [hx] at hleaf
              simp only [Outcome.res, Outcome.ok.injEq] at hleaf
              exact ⟨m2, by rw [hleaf]⟩
            | error e => rw [hx] at hleaf; simp [Outcome.res] at hleaf
            | panicked => rw [hx] at hleaf; simp [Outcome.res] at hleaf
          obtain ⟨m2, hro⟩ := hro
          cases hcos : collectM (readLeafNodes s) os with
          | ok q =>
            obtain ⟨ns, m3⟩ := q
            rw [hcos] at ihr
            simp only [M.bind, Outcome.res] at ihr
            have hcons : collectM (readLeafNodes s) (o :: os)
                = .ok (b :: ns, m2 + m3) := by
              simp [collectM, hro, hcos]
            rw [hcons]
            simp only [M.bind, Outcome.res, Outcome.bindRes]
            rw [← ihr]
            simp [Outcome.bindRes]
          | error e =>
            rw [hcos] at ihr
            simp only [M.bind, Outcome.res] at ihr
            have hcons : collectM (readLeafNodes s) (o :: os) = .error e := by
              simp [collectM, hro, hcos]
            rw [hcons]
            simp only [M.bind, Outcome.res, Outcome.bindRes]
            rw [← ihr]
          | panicked =>
            rw [hcos] at ihr
            simp only [M.bind, Outcome.res] at ihr
            have hcons : collectM (readLeafNodes s) (o :: os) = .panicked := by
              simp [collectM, hro, hcos]
            rw [hcons]
            simp only [M.bind, Outcome.res, Outcome.bindRes]
            rw [← ihr]

/-- C7: order preservation of subkey flattening.  (1) A non-IndexRoot
(leaf) subkeys list resolves to the in-order node decode of exactly its
own entry offsets — `into_offsets` performs no deduplication or sorting,
and the cached children are decoded in that same order.  (2) An IndexRoot
whose referenced lists all exist and are leaves resolves to the in-order
node decode of the concatenation, in referenced-list order, of each
referenced leaf's own offsets. -/
theorem C7_flatten_order :
    (∀ (n : KeyNode) (s : Store) (l : SubKeysList),
        n.subkeys_list_offset ≠ sentinel →
        s.subkeysLists n.subkeys_list_offset = some l →
        l.is_index_root = false →
        (n.read_subkeys s).res
          = (collectM (decodeKeyNode s) l.into_offsets).res) ∧
    (∀ (n : KeyNode) (s : Store) (os : List Nat) (ls : List SubKeysList),
        n.subkeys_list_offset ≠ sentinel →
        s.subkeysLists n.subkeys_list_offset = some (.indexRoot os) →
        listsAt s os = some ls →
        (∀ l ∈ ls, l.is_index_root = false) →
        (n.read_subkeys s).res
          = (collectM (decodeKeyNode s)
              (List.flatten (ls.map SubKeysList.into_offsets))).res) := by
  constructor
  · intro n s l h0 h1 h2
    rw [KeyNode.read_subkeys, if_neg h0, res_bind]
    simp only [readSubKeysList, h1, Outcome.res, Outcome.bindRes, h2,
      Bool.false_eq_true, if_false]
  · intro n s os ls h0 h1 hls hnr
    rw [KeyNode.read_subkeys, if_neg h0, res_bind]
    simp only [readSubKeysList, h1, Outcome.res, Outcome.bindRes,
      SubKeysList.is_index_root, if_true, SubKeysList.into_offsets]
    exact indexroot_flatten_res s os ls hls hnr

/-- C7 witness: an IndexRoot referencing a FastLeaf and an IndexLeaf
resolves to the decode of the concatenated entry offsets [711, 721]. -/
theorem C7_flatten_order_witness :
    (n7.read_subkeys s7).res
      = (collectM (decodeKeyNode s7)
          (List.flatten ([SubKeysList.fastLeaf [(711, 99)],
            SubKeysList.indexLeaf [721]].map SubKeysList.into_offsets))).res :=
  C7_flatten_order.2 n7 s7 [710, 720]
    [.fastLeaf [(711, 99)], .indexLeaf [721]]
    (by decide) (by rfl) (by rfl) (by decide)
